import Mathlib

/-!
Verification development for the upload-normalization core of
`calculadora_de_software.py` (a Streamlit personal-finance dashboard).

The subject of the specification is the function `processar_upload`,
which reads an uploaded CSV/Excel file and returns a standardized
pandas DataFrame, together with the session-state operations that
mutate the expense collection (`st.session_state.despesas`): the
appending of import results, the manual-entry form handler, and the
clear button.

Modelling conventions:
* A pandas DataFrame is a list of column labels plus a list of rows,
  each row a list of cells.
* A cell is either the missing-value marker `NaN` (`Cell.na`), a piece
  of text, or a number.  Numbers are represented exactly as decimals
  (`DecNum`: integer mantissa and a power-of-ten exponent); every value
  arising in the program (parsed decimal literals, Streamlit
  `number_input` floats, which are dyadic and hence exact decimals) is
  representable this way.
* The pandas parsers `read_csv` / `read_excel` are external library
  calls; `processar_upload` is therefore parameterized by the two
  parsing functions, each returning `Except Unit DataFrame` (an
  `error` models the parser raising an exception, e.g. on a corrupt
  file).  `readCsvSimple` below instantiates the CSV parser on simple
  comma/newline text, mirroring pandas defaults: the first line is the
  header, blank lines are skipped, and an empty field parses as `NaN`.
* `pd.to_numeric(..., errors="coerce")` on a text cell is modelled by
  `parseNum`, a decimal-literal parser (optional sign, digits, at most
  one decimal point); a cell that fails to parse becomes `Cell.na`.
-/

/-- exact decimal number: `mant / 10 ^ exp`.  Used for parsed amounts
and for Streamlit `number_input` values. -/
structure DecNum where
  mant : Int
  exp : Nat
deriving DecidableEq, Repr

/-- a pandas cell: missing value (`NaN`), text, or numeric. -/
inductive Cell where
  | na : Cell
  | str : String → Cell
  | num : DecNum → Cell
deriving DecidableEq, Repr

/-- a pandas DataFrame: column labels and rows of cells. -/
structure DataFrame where
  cols : List String
  rows : List (List Cell)
deriving DecidableEq, Repr

/-- model of `pd.DataFrame()`: the empty frame returned on every failure path. -/
def DataFrame.empty : DataFrame := ⟨[], []⟩

/-- numeric value of a digit character. -/
def digitVal (c : Char) : Nat := c.toNat - 48

/-- value of a digit string, most significant first. -/
def digitsToNat (l : List Char) : Nat :=
  l.foldl (fun n c => 10 * n + digitVal c) 0

/-- decimal-literal parser modelling the string coercion performed by
`pd.to_numeric`: optional sign, then digits with at most one decimal
point and at least one digit. -/
def parseNum (s : String) : Option DecNum :=
  let go : List Char → Option (Int → Int) → Option DecNum := fun l sgn =>
    let ip := l.takeWhile (fun c => c ≠ '.')
    let rest := l.dropWhile (fun c => c ≠ '.')
    let f : Int → Int := sgn.getD id
    match rest with
    | [] =>
        if ip ≠ [] ∧ ip.all Char.isDigit then
          some ⟨f (digitsToNat ip), 0⟩
        else none
    | _ :: frac =>
        if (ip ≠ [] ∨ frac ≠ []) ∧ ip.all Char.isDigit ∧ frac.all Char.isDigit then
          some ⟨f (digitsToNat (ip ++ frac)), frac.length⟩
        else none
  match s.data with
  | '-' :: l => go l (some Int.neg)
  | '+' :: l => go l none
  | l => go l none

/-- model of `pd.to_numeric(x, errors="coerce")` applied to one cell: numbers
pass through, text is parsed as a decimal literal, anything that fails
becomes the missing-value marker. -/
def coerceCell : Cell → Cell
  | Cell.na => Cell.na
  | Cell.num q => Cell.num q
  | Cell.str s =>
      match parseNum s with
      | some q => Cell.num q
      | none => Cell.na

/-- the alias map of `df.rename(columns={"Descrição": "Nome", "Valor":
"Valor", "Tipo": "Categoria"})`, applied to one column label. -/
def renameAlias (c : String) : String :=
  if c = "Descrição" then "Nome"
  else if c = "Valor" then "Valor"
  else if c = "Tipo" then "Categoria"
  else c

/-- model of `df.rename(columns=...)`: relabel the columns, leaving rows alone. -/
def DataFrame.renameCols (df : DataFrame) (f : String → String) : DataFrame :=
  ⟨df.cols.map f, df.rows⟩

/-- cell of row `r` in the column labelled `c` (first matching label),
`NaN` when the column is absent or the row is short.  This is pandas
label lookup for a label that occurs at most once; with duplicated
labels pandas `df[c]` returns every matching column instead, and
`colMatches` below carries the general semantics. -/
def cellAt (cols : List String) (r : List Cell) (c : String) : Cell :=
  (r.get? (cols.indexOf c)).getD Cell.na

/-- model of `df[cs]` for frames in which each listed label matches at
most one column; `DataFrame.selectDup` below is the general version
(pandas keeps every column matching a duplicated label), and the two
agree on uniquely-labelled frames (`selectDup_eq_select`). -/
def DataFrame.select (df : DataFrame) (cs : List String) : DataFrame :=
  ⟨cs, df.rows.map (fun r => cs.map (cellAt df.cols r))⟩

/-- model of `df[c] = v`: append a new column whose value is `v` in every row
(the code only does this when `c` is not already a column). -/
def DataFrame.addConstCol (df : DataFrame) (c : String) (v : Cell) : DataFrame :=
  ⟨df.cols ++ [c], df.rows.map (fun r => r ++ [v])⟩

/-- model of `df[c] = pd.to_numeric(df[c], errors="coerce")`: coerce the cells
of column `c` to numeric in place. -/
def DataFrame.toNumericCol (df : DataFrame) (c : String) : DataFrame :=
  ⟨df.cols, df.rows.map (fun r => r.set (df.cols.indexOf c) (coerceCell (cellAt df.cols r c)))⟩

/-- model of `df.dropna(subset=cs)` for frames in which each subset
label matches exactly one column; `DataFrame.dropnaSubsetDup` below is
the duplicated-label generalization. -/
def DataFrame.dropnaSubset (df : DataFrame) (cs : List String) : DataFrame :=
  ⟨df.cols, df.rows.filter (fun r => cs.all (fun c => decide (cellAt df.cols r c ≠ Cell.na)))⟩

/-- the post-parse normalization pipeline of `processar_upload`
(lines 59-75 of the source): alias renaming, required-column
validation, default category, projection onto the three canonical
columns, numeric coercion of `Valor`, and dropping rows with a missing
`Nome` or `Valor`. -/
def normalizeDF (df0 : DataFrame) : DataFrame :=
  let df := df0.renameCols renameAlias
  if "Nome" ∈ df.cols ∧ "Valor" ∈ df.cols then
    let df1 := if "Categoria" ∈ df.cols then df else df.addConstCol "Categoria" (Cell.str "Outros")
    let df2 := df1.select ["Nome", "Valor", "Categoria"]
    let df3 := df2.toNumericCol "Valor"
    df3.dropnaSubset ["Nome", "Valor"]
  else DataFrame.empty

/-- first half of the pipeline of `normalizeDF`: the renamed frame
with the category column synthesized when absent (lines 59-69 of the
source). -/
def prepDF (df0 : DataFrame) : DataFrame :=
  let df := df0.renameCols renameAlias
  if "Categoria" ∈ df.cols then df else df.addConstCol "Categoria" (Cell.str "Outros")

/-- indices of every column labelled `c`, in column order: the set of
columns pandas label lookup addresses, which has more than one element
once the alias renaming merges two source columns (e.g. a header
containing both `Descrição` and `Nome`). -/
def colMatches : List String → String → List Nat
  | [], _ => []
  | a :: t, c =>
      if a = c then 0 :: (colMatches t c).map (· + 1)
      else (colMatches t c).map (· + 1)

/-- general model of `df[cs]`, faithful to pandas also on duplicated
labels: for each listed label, every matching column is kept, in
order.  Agrees with `DataFrame.select` when each listed label matches
at most one column (`selectDup_eq_select`). -/
def DataFrame.selectDup (df : DataFrame) (cs : List String) : DataFrame :=
  ⟨(cs.map (fun c => (colMatches df.cols c).map (fun _ => c))).join,
   df.rows.map (fun r =>
     (cs.map (fun c => (colMatches df.cols c).map
       (fun i => (r.get? i).getD Cell.na))).join)⟩

/-- general model of `df.dropna(subset=cs)` on duplicated labels: a
row is kept when every column matching a subset label is present. -/
def DataFrame.dropnaSubsetDup (df : DataFrame) (cs : List String) : DataFrame :=
  ⟨df.cols, df.rows.filter (fun r =>
    cs.all (fun c => (colMatches df.cols c).all
      (fun i => decide ((r.get? i).getD Cell.na ≠ Cell.na))))⟩

/-- the normalization pipeline built on the duplicate-label-faithful
selection and dropna.  The `Valor` coercion stays single-column
(`toNumericCol`): only the source column `Valor` renames to `Valor`,
so the amount label is never duplicated on parser-reachable frames.
When the renamed header has no duplicate labels this function equals
`normalizeDF` (`normalizeDFDup_eq`). -/
def normalizeDFDup (df0 : DataFrame) : DataFrame :=
  let df := df0.renameCols renameAlias
  if "Nome" ∈ df.cols ∧ "Valor" ∈ df.cols then
    let df1 := if "Categoria" ∈ df.cols then df else df.addConstCol "Categoria" (Cell.str "Outros")
    let df2 := df1.selectDup ["Nome", "Valor", "Categoria"]
    let df3 := df2.toNumericCol "Valor"
    df3.dropnaSubsetDup ["Nome", "Valor"]
  else DataFrame.empty

/-- model of `s.endswith(suf)` on the character list underlying a Python
string: the last `suf.length` characters equal `suf`. -/
def endsWithL (s suf : List Char) : Bool :=
  decide (suf.length ≤ s.length) && decide (s.drop (s.length - suf.length) = suf)

/-- Python's `str.endswith`. -/
def strEndsWith (s suf : String) : Bool :=
  endsWithL s.data suf.data

/-- an uploaded file as `processar_upload` sees it: a name (used only
for the extension dispatch) and the content handed to the parser. -/
structure UploadedFile where
  name : String
  content : String
deriving DecidableEq

/-- the body of the `try:` block of `processar_upload`: dispatch on
the file extension, run the library parser (which may fail), and
normalize the parsed frame.  The normalization steps themselves are
total. -/
def processarBody (readCsv readExcel : String → Except Unit DataFrame)
    (f : UploadedFile) : Except Unit DataFrame :=
  if strEndsWith f.name ".csv" then
    (readCsv f.content).map normalizeDF
  else if strEndsWith f.name ".xlsx" || strEndsWith f.name ".xls" then
    (readExcel f.content).map normalizeDF
  else
    Except.ok DataFrame.empty

/-- model of `processar_upload`: the body wrapped in the catch-all
`except Exception: return pd.DataFrame()`. -/
def processar_upload (readCsv readExcel : String → Except Unit DataFrame)
    (f : UploadedFile) : DataFrame :=
  match processarBody readCsv readExcel f with
  | Except.ok df => df
  | Except.error _ => DataFrame.empty

/-- the try-block body with the duplicate-label-faithful pipeline. -/
def processarBodyDup (readCsv readExcel : String → Except Unit DataFrame)
    (f : UploadedFile) : Except Unit DataFrame :=
  if strEndsWith f.name ".csv" then
    (readCsv f.content).map normalizeDFDup
  else if strEndsWith f.name ".xlsx" || strEndsWith f.name ".xls" then
    (readExcel f.content).map normalizeDFDup
  else
    Except.ok DataFrame.empty

/-- model of `processar_upload` built on the duplicate-label-faithful
pipeline (equal to `processar_upload` whenever the renamed header has
no duplicate labels). -/
def processar_upload_dupcols (readCsv readExcel : String → Except Unit DataFrame)
    (f : UploadedFile) : DataFrame :=
  match processarBodyDup readCsv readExcel f with
  | Except.ok df => df
  | Except.error _ => DataFrame.empty

/-- split a character list at every occurrence of `sep`. -/
def splitOnChar (sep : Char) : List Char → List (List Char)
  | [] => [[]]
  | c :: rest =>
      match splitOnChar sep rest with
      | [] => [[c]]
      | h :: t => if c = sep then [] :: h :: t else (c :: h) :: t

/-- instantiation of the `pd.read_csv` parameter on simple
comma-separated text, mirroring pandas defaults on unquoted input: the
first line is the header, blank lines are skipped, fields are split at
commas, and an empty field becomes `NaN`.  A file with no lines at all
raises (pandas `EmptyDataError`). -/
def readCsvSimple (text : String) : Except Unit DataFrame :=
  match (splitOnChar '\n' text.data).filter (fun l => l ≠ []) with
  | [] => Except.error ()
  | header :: body =>
      Except.ok
        ⟨(splitOnChar ',' header).map (fun l => String.mk l),
         body.map (fun l => (splitOnChar ',' l).map
           (fun fld => if fld = [] then Cell.na else Cell.str (String.mk fld)))⟩

/-- a parser that always raises, standing in for `pd.read_excel` in
concrete scenarios that never reach it. -/
def readFail : String → Except Unit DataFrame := fun _ => Except.error ()

/-- pandas `read_csv` output for the one file
`"Descrição,Valor\n123,45"`: dtype inference stores an all-numeric
column as integers, so both cells — including the name — come back as
numbers, not text. -/
def readCsvInferido : String → Except Unit DataFrame := fun t =>
  if t = "Descrição,Valor\n123,45" then
    Except.ok ⟨["Descrição", "Valor"], [[Cell.num ⟨123, 0⟩, Cell.num ⟨45, 0⟩]]⟩
  else Except.error ()

/-- one record of `st.session_state.despesas`: the dict
`{"Nome": ..., "Valor": ..., "Categoria": ...}`. -/
structure Record where
  nome : Cell
  valor : Cell
  categoria : Cell
deriving DecidableEq, Repr

/-- model of `df.to_dict("records")` on a normalized frame: one record per row,
fields looked up by canonical column label. -/
def DataFrame.toRecords (df : DataFrame) : List Record :=
  df.rows.map (fun r => ⟨cellAt df.cols r "Nome", cellAt df.cols r "Valor", cellAt df.cols r "Categoria"⟩)

/-- the three operations of the program that mutate
`st.session_state.despesas`. -/
inductive SessionOp where
  | importar (readCsv readExcel : String → Except Unit DataFrame) (f : UploadedFile)
  | manual (nome : String) (valor : DecNum) (categoria : String)
  | limpar

/-- effect of one mutating operation on the expense collection:
the import handler (`if not df_importado.empty:
st.session_state.despesas.extend(df_importado.to_dict("records"))`),
the manual form handler (`if nome and valor > 0:
st.session_state.despesas.append({...})`), and the clear button
(`st.session_state.despesas = []`). -/
def applyOp (s : List Record) : SessionOp → List Record
  | SessionOp.importar rc re f =>
      let df := processar_upload rc re f
      if df.cols = [] ∨ df.rows = [] then s else s ++ df.toRecords
  | SessionOp.manual nome valor categoria =>
      if nome ≠ "" ∧ 0 < valor.mant then
        s ++ [⟨Cell.str nome, Cell.num valor, Cell.str categoria⟩]
      else s
  | SessionOp.limpar => []

/-- cells as produced by the library parsers with default settings:
anything except empty-string text.  Pandas' default NA handling turns
empty fields into `NaN`, so the empty string never occurs — but dtype
inference can store a column as numbers, so numeric cells do occur
(also for a name column). -/
def parsedCell (c : Cell) : Prop :=
  c ≠ Cell.str ""

/-- a frame all of whose cells look like library-parser output. -/
def DataFrame.ParsedCells (df : DataFrame) : Prop :=
  ∀ r ∈ df.rows, ∀ c ∈ r, parsedCell c

/-- a frame whose rows all match the header width (pandas parsers
produce rectangular frames). -/
def DataFrame.Uniform (df : DataFrame) : Prop :=
  ∀ r ∈ df.rows, r.length = df.cols.length

/-- the stored-record invariant exactly as the claim words it: a
non-empty textual name and a successfully-parsed numeric amount.  The
code does not guarantee the textual part (see the C2 theorems). -/
def GoodRecord (r : Record) : Prop :=
  (∃ s, r.nome = Cell.str s ∧ s ≠ "") ∧ ∃ q, r.valor = Cell.num q

/-- the stored-record invariant the code actually guarantees: the name
is present (never `NaN`, and non-empty whenever it is text) and the
amount is a parsed number. -/
def StoredRecordOK (r : Record) : Prop :=
  r.nome ≠ Cell.na ∧ (∀ s, r.nome = Cell.str s → s ≠ "") ∧ ∃ q, r.valor = Cell.num q

/-- well-formedness of a session operation: the import operation only
uses parsers whose successful results consist of parser-shaped cells;
the other operations carry no parser. -/
def OpWF : SessionOp → Prop
  | SessionOp.importar rc re _ =>
      (∀ t df, rc t = Except.ok df → df.ParsedCells) ∧
      (∀ t df, re t = Except.ok df → df.ParsedCells)
  | SessionOp.manual _ _ _ => True
  | SessionOp.limpar => True

/-- hypothesis that the extension dispatch of `processar_upload`
parses file `f` successfully into the frame `df`: either the CSV
branch or the Excel branch runs and its parser succeeds. -/
def ParsesTo (readCsv readExcel : String → Except Unit DataFrame)
    (f : UploadedFile) (df : DataFrame) : Prop :=
  (strEndsWith f.name ".csv" = true ∧ readCsv f.content = Except.ok df) ∨
  (strEndsWith f.name ".csv" = false ∧
    (strEndsWith f.name ".xlsx" = true ∨ strEndsWith f.name ".xls" = true) ∧
    readExcel f.content = Except.ok df)

/-- output of the normalizer as the specification words it: take the
renamed input (with the category column synthesized if absent), keep
exactly the rows whose name is present and whose amount value coerces
to a number, and project each kept row, in the original order, onto
the three canonical fields with the amount coerced. -/
def claimOutput (df0 : DataFrame) : DataFrame :=
  let df := df0.renameCols renameAlias
  let df1 := if "Categoria" ∈ df.cols then df else df.addConstCol "Categoria" (Cell.str "Outros")
  ⟨["Nome", "Valor", "Categoria"],
   (df1.rows.filter (fun r =>
       decide (cellAt df1.cols r "Nome" ≠ Cell.na) &&
       decide (coerceCell (cellAt df1.cols r "Valor") ≠ Cell.na))).map
     (fun r => [cellAt df1.cols r "Nome",
                coerceCell (cellAt df1.cols r "Valor"),
                cellAt df1.cols r "Categoria"])⟩

/-- letter-case variant relation: `ext` lowercases to `base` but is not
`base` itself (so it differs only by letter case and contains at least
one uppercase letter). -/
def caseVariant (ext base : String) : Prop :=
  ext.data.map Char.toLower = base.data ∧ ext ≠ base

/-- scenario CSV text of the specification, with the header spelled in
English exactly as the claim states it. -/
def scenarioCsvEn : String :=
  "Description,Value,Type\nCoffee,12.50,Food\nRent,bad,Housing\nGym,30,"

/-- the same scenario rows under the header labels the source's alias
map actually recognizes. -/
def scenarioCsvPt : String :=
  "Descrição,Valor,Tipo\nCoffee,12.50,Food\nRent,bad,Housing\nGym,30,"

/-! Helper lemmas shared by the claim theorems. -/

lemma string_eq_of_data {s t : String} (h : s.data = t.data) : s = t := by
  cases s; cases t; exact congrArg String.mk h

lemma endsWithL_spec {s suf : List Char} (h : endsWithL s suf = true) :
    suf.length ≤ s.length ∧ s.drop (s.length - suf.length) = suf := by
  simpa [endsWithL] using h

/-- two suffixes of the same list are nested: the shorter one is the
tail of the longer one. -/
lemma suffix_nest (s a b : List Char) (ha : endsWithL s a = true)
    (hb : endsWithL s b = true) (hl : a.length ≤ b.length) :
    b.drop (b.length - a.length) = a := by
  obtain ⟨hb1, hb2⟩ := endsWithL_spec hb
  obtain ⟨ha1, ha2⟩ := endsWithL_spec ha
  have key : (s.drop (s.length - b.length)).drop (b.length - a.length)
      = s.drop (s.length - a.length) := by
    rw [List.drop_drop]
    congr 1
    omega
  rw [hb2] at key
  rw [key, ha2]

/-- when no recognized extension matches, `processar_upload` returns
the empty frame without touching the content. -/
lemma upload_empty_of_no_ext (rc re : String → Except Unit DataFrame)
    (f : UploadedFile) (h1 : strEndsWith f.name ".csv" = false)
    (h2 : strEndsWith f.name ".xlsx" = false)
    (h3 : strEndsWith f.name ".xls" = false) :
    processar_upload rc re f = DataFrame.empty := by
  simp [processar_upload, processarBody, h1, h2, h3]

/-- when the dispatch parses `f` into `df`, the result is the
normalization of `df`. -/
lemma parsesTo_processar (rc re : String → Except Unit DataFrame)
    (f : UploadedFile) (df : DataFrame) (h : ParsesTo rc re f df) :
    processar_upload rc re f = normalizeDF df := by
  rcases h with ⟨hcsv, hok⟩ | ⟨hncsv, hx, hok⟩
  · simp [processar_upload, processarBody, hcsv, hok, Except.map]
  · have hor : (strEndsWith f.name ".xlsx" || strEndsWith f.name ".xls") = true := by
      rcases hx with h | h <;> simp [h]
    simp [processar_upload, processarBody, hncsv, hor, hok, Except.map]

lemma coerce_num_of_ne_na {c : Cell} (h : coerceCell c ≠ Cell.na) :
    ∃ q, coerceCell c = Cell.num q := by
  cases c with
  | na => simp [coerceCell] at h
  | num q => exact ⟨q, rfl⟩
  | str s =>
      cases hp : parseNum s with
      | none => simp [coerceCell, hp] at h
      | some q => exact ⟨q, by simp [coerceCell, hp]⟩

lemma cellAt_canonical_nome (a b c : Cell) :
    cellAt ["Nome", "Valor", "Categoria"] [a, b, c] "Nome" = a := rfl

lemma cellAt_canonical_valor (a b c : Cell) :
    cellAt ["Nome", "Valor", "Categoria"] [a, b, c] "Valor" = b := rfl

lemma cellAt_canonical_categoria (a b c : Cell) :
    cellAt ["Nome", "Valor", "Categoria"] [a, b, c] "Categoria" = c := rfl

lemma set_valor_canonical (a b c x : Cell) :
    ([a, b, c] : List Cell).set ((["Nome", "Valor", "Categoria"] : List String).indexOf "Valor") x
      = [a, x, c] := rfl

/-! Claim theorems. -/

/-- C1: the normalizer never raises to its caller: whatever the
parsers do on whatever input, `processar_upload` returns the value of
the try-block body when it succeeds and degrades to the empty frame
when the body raises, so no exception escapes. -/
theorem c1_no_exception_escapes (rc re : String → Except Unit DataFrame)
    (f : UploadedFile) :
    (∀ e, processarBody rc re f = Except.error e →
      processar_upload rc re f = DataFrame.empty) ∧
    (∀ df, processarBody rc re f = Except.ok df →
      processar_upload rc re f = df) := by
  constructor <;> intro x h <;> simp [processar_upload, h]

/-- witness for C1 at a concrete failing parse. -/
theorem c1_no_exception_escapes_witness :
    processar_upload readFail readFail ⟨"dados.csv", "lixo"⟩ = DataFrame.empty :=
  (c1_no_exception_escapes readFail readFail ⟨"dados.csv", "lixo"⟩).1 () (by rfl)

/-- C5: a file whose name ends in none of `.csv`, `.xlsx`, `.xls`
normalizes to the empty frame regardless of its content. -/
theorem c5_unknown_extension_empty (rc re : String → Except Unit DataFrame)
    (f : UploadedFile) (h1 : strEndsWith f.name ".csv" = false)
    (h2 : strEndsWith f.name ".xlsx" = false)
    (h3 : strEndsWith f.name ".xls" = false) :
    processar_upload rc re f = DataFrame.empty :=
  upload_empty_of_no_ext rc re f h1 h2 h3

/-- witness for C5: `data.txt` with well-formed CSV content. -/
theorem c5_unknown_extension_empty_witness :
    processar_upload readCsvSimple readFail ⟨"data.txt", scenarioCsvPt⟩ = DataFrame.empty :=
  c5_unknown_extension_empty readCsvSimple readFail ⟨"data.txt", scenarioCsvPt⟩
    (by decide) (by decide) (by decide)

/-- C8: normalization is deterministic and free of hidden mutable
state: two files with the same name and the same content normalize to
the same output. -/
theorem c8_deterministic (rc re : String → Except Unit DataFrame)
    (f g : UploadedFile) (hn : f.name = g.name) (hc : f.content = g.content) :
    processar_upload rc re f = processar_upload rc re g := by
  cases f; cases g; cases hn; cases hc; rfl

/-- witness for C8 at a concrete file. -/
theorem c8_deterministic_witness :
    processar_upload readCsvSimple readFail ⟨"dados.csv", scenarioCsvPt⟩ =
      processar_upload readCsvSimple readFail ⟨"dados.csv", scenarioCsvPt⟩ :=
  c8_deterministic readCsvSimple readFail _ _ rfl rfl

/-- C9: the manual-entry handler appends the three-field record
exactly when the entered name is non-empty and the amount is strictly
positive, and otherwise leaves the collection unchanged. -/
theorem c9_manual_entry (s : List Record) (nome : String) (valor : DecNum)
    (categoria : String) :
    (nome ≠ "" ∧ 0 < valor.mant →
      applyOp s (SessionOp.manual nome valor categoria) =
        s ++ [⟨Cell.str nome, Cell.num valor, Cell.str categoria⟩]) ∧
    (¬(nome ≠ "" ∧ 0 < valor.mant) →
      applyOp s (SessionOp.manual nome valor categoria) = s) := by
  constructor <;> intro h <;> simp [applyOp, h]

/-- witness for C9 at a concrete manual entry. -/
theorem c9_manual_entry_witness :
    applyOp [] (SessionOp.manual "Café" ⟨450, 2⟩ "Alimentação") =
      [⟨Cell.str "Café", Cell.num ⟨450, 2⟩, Cell.str "Alimentação"⟩] :=
  (c9_manual_entry [] "Café" ⟨450, 2⟩ "Alimentação").1 (by decide)

lemma normalizeDF_empty_of_missing (df0 : DataFrame)
    (h : ¬("Nome" ∈ (df0.renameCols renameAlias).cols ∧
           "Valor" ∈ (df0.renameCols renameAlias).cols)) :
    normalizeDF df0 = DataFrame.empty := by
  simp only [normalizeDF]
  rw [if_neg h]

lemma normalizeDF_pos (df0 : DataFrame)
    (h : "Nome" ∈ (df0.renameCols renameAlias).cols ∧
         "Valor" ∈ (df0.renameCols renameAlias).cols) :
    normalizeDF df0 =
      (((prepDF df0).select ["Nome", "Valor", "Categoria"]).toNumericCol
        "Valor").dropnaSubset ["Nome", "Valor"] := by
  simp only [normalizeDF, prepDF]
  rw [if_pos h]

/-- anatomy of a surviving row of the normalization pipeline: it is
the projection of an input row whose name cell is present and whose
amount cell coerces to a number. -/
lemma mem_pipeline_rows {df1 : DataFrame} {r : List Cell}
    (hr : r ∈ (((df1.select ["Nome", "Valor", "Categoria"]).toNumericCol
      "Valor").dropnaSubset ["Nome", "Valor"]).rows) :
    ∃ r0 ∈ df1.rows,
      r = [cellAt df1.cols r0 "Nome", coerceCell (cellAt df1.cols r0 "Valor"),
           cellAt df1.cols r0 "Categoria"] ∧
      cellAt df1.cols r0 "Nome" ≠ Cell.na ∧
      coerceCell (cellAt df1.cols r0 "Valor") ≠ Cell.na := by
  simp only [DataFrame.select, DataFrame.toNumericCol, DataFrame.dropnaSubset] at hr
  rw [List.map_map] at hr
  obtain ⟨hmem, hkeep⟩ := List.mem_filter.mp hr
  obtain ⟨r0, hr0, heq⟩ := List.mem_map.mp hmem
  have hshape : r = [cellAt df1.cols r0 "Nome",
      coerceCell (cellAt df1.cols r0 "Valor"), cellAt df1.cols r0 "Categoria"] :=
    heq.symm
  subst hshape
  have hkeep' : (decide (cellAt df1.cols r0 "Nome" ≠ Cell.na) &&
      (decide (coerceCell (cellAt df1.cols r0 "Valor") ≠ Cell.na) && true)) = true := hkeep
  simp only [Bool.and_true, Bool.and_eq_true, decide_eq_true_eq] at hkeep'
  exact ⟨r0, hr0, rfl, hkeep'.1, hkeep'.2⟩

/-- every cell of the prepared frame is parser-shaped or the
synthesized default category. -/
lemma prepDF_cells (df0 : DataFrame) (hp : df0.ParsedCells) :
    ∀ r ∈ (prepDF df0).rows, ∀ c ∈ r, parsedCell c ∨ c = Cell.str "Outros" := by
  intro r hr c hc
  simp only [prepDF] at hr
  split at hr
  · exact Or.inl (hp r hr c hc)
  · simp only [DataFrame.addConstCol, DataFrame.renameCols] at hr
    obtain ⟨r1, hr1, hr1eq⟩ := List.mem_map.mp hr
    rw [← hr1eq] at hc
    rcases List.mem_append.mp hc with h | h
    · exact Or.inl (hp r1 hr1 c h)
    · simp only [List.mem_singleton] at h
      exact Or.inr h

/-- every row of the normalized output carries at position 0 a present
name cell which is non-empty whenever it is text, and at position 1 a
parsed number. -/
lemma normalize_rows_good (df0 : DataFrame) (hp : df0.ParsedCells) :
    ∀ r ∈ (normalizeDF df0).rows,
      (∃ c, r.get? 0 = some c ∧ c ≠ Cell.na ∧ ∀ s, c = Cell.str s → s ≠ "") ∧
      (∃ q, r.get? 1 = some (Cell.num q)) := by
  intro r hr
  by_cases hg : "Nome" ∈ (df0.renameCols renameAlias).cols ∧
      "Valor" ∈ (df0.renameCols renameAlias).cols
  · rw [normalizeDF_pos df0 hg] at hr
    obtain ⟨r0, hr0, hshape, hnna, hvna⟩ := mem_pipeline_rows hr
    subst hshape
    constructor
    · have hget : cellAt (prepDF df0).cols r0 "Nome" =
          (r0.get? ((prepDF df0).cols.indexOf "Nome")).getD Cell.na := rfl
      cases hgi : r0.get? ((prepDF df0).cols.indexOf "Nome") with
      | none => rw [hget, hgi] at hnna; simp at hnna
      | some c =>
          have hcr : cellAt (prepDF df0).cols r0 "Nome" = c := by rw [hget, hgi]; rfl
          have hcmem : c ∈ r0 := List.get?_mem hgi
          refine ⟨c, by rw [← hcr]; rfl, by rw [← hcr]; exact hnna, ?_⟩
          rcases prepDF_cells df0 hp r0 hr0 c hcmem with hpc | hout
          · intro s hcs hse
            exact hpc (by rw [hcs, hse])
          · intro s hcs
            rw [hout] at hcs
            injection hcs with h2
            rw [← h2]
            decide
    · obtain ⟨q, hq⟩ := coerce_num_of_ne_na hvna
      exact ⟨q, by simp [hq]⟩
  · rw [normalizeDF_empty_of_missing df0 hg] at hr
    exact absurd hr (List.not_mem_nil r)

/-- the records appended by the import handler all satisfy the
invariant the code guarantees. -/
lemma toRecords_ok (df0 : DataFrame) (hp : df0.ParsedCells) :
    ∀ rec ∈ (normalizeDF df0).toRecords, StoredRecordOK rec := by
  intro rec hrec
  by_cases hg : "Nome" ∈ (df0.renameCols renameAlias).cols ∧
      "Valor" ∈ (df0.renameCols renameAlias).cols
  · rw [normalizeDF_pos df0 hg] at hrec
    simp only [DataFrame.toRecords,
      show ((((prepDF df0).select ["Nome", "Valor", "Categoria"]).toNumericCol
        "Valor").dropnaSubset ["Nome", "Valor"]).cols = ["Nome", "Valor", "Categoria"]
        from rfl] at hrec
    obtain ⟨r, hr, hreq⟩ := List.mem_map.mp hrec
    have hr' : r ∈ (normalizeDF df0).rows := by
      rw [normalizeDF_pos df0 hg]; exact hr
    obtain ⟨⟨c, hc0, hcna, hctext⟩, ⟨q, hq1⟩⟩ := normalize_rows_good df0 hp r hr'
    rw [← hreq]
    refine ⟨?_, ?_, ⟨q, ?_⟩⟩
    · show cellAt ["Nome", "Valor", "Categoria"] r "Nome" ≠ Cell.na
      show (r.get? 0).getD Cell.na ≠ Cell.na
      rw [hc0]
      exact hcna
    · intro s hcs
      apply hctext s
      have hcs' : (r.get? 0).getD Cell.na = Cell.str s := hcs
      rw [hc0] at hcs'
      exact hcs'
    · show cellAt ["Nome", "Valor", "Categoria"] r "Valor" = Cell.num q
      show (r.get? 1).getD Cell.na = Cell.num q
      rw [hq1]
      rfl
  · rw [normalizeDF_empty_of_missing df0 hg] at hrec
    exact absurd hrec (List.not_mem_nil rec)

/-- the always-raising parser never hands back a frame. -/
lemma readFail_parsedCells : ∀ t df, readFail t = Except.ok df → df.ParsedCells :=
  fun _ _ h => Except.noConfusion h

/-- `readCsvSimple` only produces `NaN` cells and non-empty text. -/
lemma readCsvSimple_parsedCells : ∀ t df,
    readCsvSimple t = Except.ok df → df.ParsedCells := by
  intro t df h
  unfold readCsvSimple at h
  split at h
  · exact Except.noConfusion h
  · injection h with h
    subst h
    intro r hr c hc
    obtain ⟨l, hl, hleq⟩ := List.mem_map.mp hr
    rw [← hleq] at hc
    obtain ⟨fld, hfld, hfeq⟩ := List.mem_map.mp hc
    rw [← hfeq]
    by_cases hn : fld = []
    · rw [if_pos hn]
      exact fun hcon => Cell.noConfusion hcon
    · rw [if_neg hn]
      intro hcon
      injection hcon with h2
      exact hn (congrArg String.data h2)

/-- the function `processar_upload` either degrades to the empty frame or
normalizes some successfully parsed frame. -/
lemma upload_cases (rc re : String → Except Unit DataFrame) (f : UploadedFile)
    (hrc : ∀ t df, rc t = Except.ok df → df.ParsedCells)
    (hre : ∀ t df, re t = Except.ok df → df.ParsedCells) :
    processar_upload rc re f = DataFrame.empty ∨
      ∃ df, df.ParsedCells ∧ processar_upload rc re f = normalizeDF df := by
  by_cases h1 : strEndsWith f.name ".csv" = true
  · cases hc : rc f.content with
    | error e => exact Or.inl (by simp [processar_upload, processarBody, h1, hc, Except.map])
    | ok df =>
        exact Or.inr ⟨df, hrc _ _ hc,
          by simp [processar_upload, processarBody, h1, hc, Except.map]⟩
  · by_cases h2 : (strEndsWith f.name ".xlsx" || strEndsWith f.name ".xls") = true
    · cases hc : re f.content with
      | error e =>
          exact Or.inl (by simp [processar_upload, processarBody, h1, h2, hc, Except.map])
      | ok df =>
          exact Or.inr ⟨df, hre _ _ hc,
            by simp [processar_upload, processarBody, h1, h2, hc, Except.map]⟩
    · exact Or.inl (by simp [processar_upload, processarBody, h1, h2])

/-- C4: when the dispatch parses the input but, after alias renaming,
the name column or the amount column is absent, the result is the
empty frame. -/
theorem c4_missing_columns_empty (rc re : String → Except Unit DataFrame)
    (f : UploadedFile) (df : DataFrame) (hp : ParsesTo rc re f df)
    (h : "Nome" ∉ (df.renameCols renameAlias).cols ∨
         "Valor" ∉ (df.renameCols renameAlias).cols) :
    processar_upload rc re f = DataFrame.empty := by
  rw [parsesTo_processar rc re f df hp]
  exact normalizeDF_empty_of_missing df (by tauto)

/-- witness for C4: a parsed CSV with neither recognized column. -/
theorem c4_missing_columns_empty_witness :
    processar_upload readCsvSimple readFail ⟨"a.csv", "X\n1"⟩ = DataFrame.empty :=
  c4_missing_columns_empty readCsvSimple readFail ⟨"a.csv", "X\n1"⟩
    ⟨["X"], [[Cell.str "1"]]⟩ (Or.inl ⟨by decide, by rfl⟩) (Or.inl (by decide))

/-- C2 counterexample: pandas dtype inference stores the all-numeric
name column of the CSV `"Descrição,Valor\n123,45"` as integers, so
importing that file stores the record
`{Nome: 123, Valor: 45, Categoria: "Outros"}` — a record whose name is
a number, not non-empty text, refuting the claimed invariant on a real
import. -/
theorem c2_counterexample_numeric_name :
    applyOp [] (SessionOp.importar readCsvInferido readFail
        ⟨"n.csv", "Descrição,Valor\n123,45"⟩) =
      [⟨Cell.num ⟨123, 0⟩, Cell.num ⟨45, 0⟩, Cell.str "Outros"⟩] ∧
    ¬ GoodRecord ⟨Cell.num ⟨123, 0⟩, Cell.num ⟨45, 0⟩, Cell.str "Outros"⟩ := by
  constructor
  · decide
  · rintro ⟨⟨s, hs, -⟩, -⟩
    exact Cell.noConfusion hs

/-- C2 amended: every mutating operation (import append with
library-parser inputs, manual append, clear) preserves the invariant
the code guarantees: every stored record has a present name — which is
non-empty whenever it is text — and a successfully-parsed numeric
amount. -/
theorem c2_collection_invariant_amended (s : List Record) (op : SessionOp)
    (hwf : OpWF op) (hs : ∀ r ∈ s, StoredRecordOK r) :
    ∀ r ∈ applyOp s op, StoredRecordOK r := by
  cases op with
  | importar rc re f =>
      intro r hr
      simp only [applyOp] at hr
      rcases upload_cases rc re f hwf.1 hwf.2 with he | ⟨df, hdf, heq⟩
      · rw [he] at hr
        simp [DataFrame.empty] at hr
        exact hs r hr
      · rw [heq] at hr
        split at hr
        · exact hs r hr
        · rcases List.mem_append.mp hr with h | h
          · exact hs r h
          · exact toRecords_ok df hdf r h
  | manual nome valor categoria =>
      intro r hr
      simp only [applyOp] at hr
      split at hr
      · rcases List.mem_append.mp hr with h | h
        · exact hs r h
        · simp only [List.mem_singleton] at h
          subst h
          rename_i hcond
          refine ⟨fun h2 => Cell.noConfusion h2, ?_, ⟨valor, rfl⟩⟩
          intro s hss
          injection hss with h2
          rw [← h2]
          exact hcond.1
      · exact hs r hr
  | limpar =>
      intro r hr
      exact absurd hr (List.not_mem_nil r)

/-- witness for the amended C2, exercising the import branch: the
Coffee record stored by importing the scenario CSV satisfies the
invariant. -/
theorem c2_collection_invariant_amended_witness :
    StoredRecordOK ⟨Cell.str "Coffee", Cell.num ⟨1250, 2⟩, Cell.str "Food"⟩ :=
  c2_collection_invariant_amended []
    (SessionOp.importar readCsvSimple readFail ⟨"data.csv", scenarioCsvPt⟩)
    ⟨readCsvSimple_parsedCells, readFail_parsedCells⟩
    (fun r h => absurd h (List.not_mem_nil r)) _ (by decide)

/-- C7 counterexample: on the scenario CSV exactly as the claim states
it (header `Description,Value,Type`), the output is the empty frame,
so in particular it does not contain the record
`("Coffee", 12.50, "Food")`. -/
theorem c7_scenario_counterexample :
    processar_upload readCsvSimple readFail ⟨"data.csv", scenarioCsvEn⟩ =
      DataFrame.empty ∧
    [Cell.str "Coffee", Cell.num ⟨1250, 2⟩, Cell.str "Food"] ∉
      (processar_upload readCsvSimple readFail ⟨"data.csv", scenarioCsvEn⟩).rows := by
  decide

/-- C7 amended: with the header labels the alias map actually
recognizes (`Descrição,Valor,Tipo`) and the same data rows, the output
is exactly the records `("Coffee", 12.50, "Food")` and
`("Gym", 30.0, NaN)` in order: the `Rent` row is dropped, and the
blank category of `Gym` becomes the missing-value marker. -/
theorem c7_scenario_amended :
    processar_upload readCsvSimple readFail ⟨"data.csv", scenarioCsvPt⟩ =
      ⟨["Nome", "Valor", "Categoria"],
       [[Cell.str "Coffee", Cell.num ⟨1250, 2⟩, Cell.str "Food"],
        [Cell.str "Gym", Cell.num ⟨30, 0⟩, Cell.na]]⟩ := by
  decide

/-- the implementation order (project, then coerce, then drop) agrees
with the specification order (filter the prepared rows, then project
with coercion), row for row. -/
lemma normalizeDF_eq_claimOutput (df0 : DataFrame)
    (hn : "Nome" ∈ (df0.renameCols renameAlias).cols)
    (hv : "Valor" ∈ (df0.renameCols renameAlias).cols) :
    normalizeDF df0 = claimOutput df0 := by
  rw [normalizeDF_pos df0 ⟨hn, hv⟩]
  show _ = DataFrame.mk ["Nome", "Valor", "Categoria"]
      (((prepDF df0).rows.filter (fun r =>
          decide (cellAt (prepDF df0).cols r "Nome" ≠ Cell.na) &&
          decide (coerceCell (cellAt (prepDF df0).cols r "Valor") ≠ Cell.na))).map
        (fun r => [cellAt (prepDF df0).cols r "Nome",
                   coerceCell (cellAt (prepDF df0).cols r "Valor"),
                   cellAt (prepDF df0).cols r "Categoria"]))
  generalize prepDF df0 = df1
  simp only [DataFrame.select, DataFrame.toNumericCol, DataFrame.dropnaSubset]
  congr 1
  rw [List.map_map, List.filter_map]
  rw [List.filter_congr (fun (r : List Cell) _ => by
    show (decide (cellAt df1.cols r "Nome" ≠ Cell.na) &&
          (decide (coerceCell (cellAt df1.cols r "Valor") ≠ Cell.na) && true)) =
         (decide (cellAt df1.cols r "Nome" ≠ Cell.na) &&
          decide (coerceCell (cellAt df1.cols r "Valor") ≠ Cell.na))
    rw [Bool.and_true])]
  exact List.map_congr_left (fun r _ => rfl)

lemma colMatches_of_not_mem (l : List String) (c : String) (h : c ∉ l) :
    colMatches l c = [] := by
  induction l with
  | nil => rfl
  | cons a t ih =>
      have hne : a ≠ c := by
        intro hh
        exact h (hh ▸ List.mem_cons_self a t)
      have ht : c ∉ t := fun hh => h (List.mem_cons_of_mem a hh)
      simp [colMatches, hne, ih ht]

lemma colMatches_nodup (l : List String) (c : String) (hnd : l.Nodup)
    (hc : c ∈ l) : colMatches l c = [l.indexOf c] := by
  induction l with
  | nil => exact absurd hc (List.not_mem_nil c)
  | cons a t ih =>
      rcases List.nodup_cons.mp hnd with ⟨hat, hndt⟩
      by_cases hac : a = c
      · subst hac
        simp [colMatches, colMatches_of_not_mem t a hat, List.indexOf_cons_self]
      · rcases List.mem_cons.mp hc with h | h
        · exact absurd h.symm hac
        · simp [colMatches, hac, ih hndt h, List.indexOf_cons_ne _ hac]

/-- on a frame with distinct column labels, the general selection and
the first-match selection agree. -/
lemma selectDup_eq_select (df : DataFrame) (cs : List String)
    (hnd : df.cols.Nodup) (hcs : ∀ c ∈ cs, c ∈ df.cols) :
    df.selectDup cs = df.select cs := by
  have hcols : ∀ cs' : List String, (∀ c ∈ cs', c ∈ df.cols) →
      (cs'.map (fun c => (colMatches df.cols c).map (fun _ => c))).join = cs' := by
    intro cs'
    induction cs' with
    | nil => intro _; rfl
    | cons c t ih =>
        intro h
        show ((colMatches df.cols c).map (fun _ => c)) ++
            ((t.map (fun c => (colMatches df.cols c).map (fun _ => c))).join) = c :: t
        rw [colMatches_nodup df.cols c hnd (h c (List.mem_cons_self c t))]
        exact congrArg (List.cons c) (ih (fun x hx => h x (List.mem_cons_of_mem c hx)))
  have hrow : ∀ (r : List Cell) (cs' : List String), (∀ c ∈ cs', c ∈ df.cols) →
      (cs'.map (fun c => (colMatches df.cols c).map
        (fun i => (r.get? i).getD Cell.na))).join = cs'.map (cellAt df.cols r) := by
    intro r cs'
    induction cs' with
    | nil => intro _; rfl
    | cons c t ih =>
        intro h
        show ((colMatches df.cols c).map (fun i => (r.get? i).getD Cell.na)) ++
            ((t.map (fun c => (colMatches df.cols c).map
              (fun i => (r.get? i).getD Cell.na))).join) =
            cellAt df.cols r c :: t.map (cellAt df.cols r)
        rw [colMatches_nodup df.cols c hnd (h c (List.mem_cons_self c t))]
        exact congrArg (List.cons (cellAt df.cols r c))
          (ih (fun x hx => h x (List.mem_cons_of_mem c hx)))
  simp only [DataFrame.selectDup, DataFrame.select]
  congr 1
  · exact hcols cs hcs
  · exact List.map_congr_left (fun r _ => hrow r cs hcs)

/-- on the canonical three-column frame the general dropna and the
first-match dropna agree. -/
lemma dropnaDup_eq_canonical (df : DataFrame)
    (hcols : df.cols = ["Nome", "Valor", "Categoria"]) :
    df.dropnaSubsetDup ["Nome", "Valor"] = df.dropnaSubset ["Nome", "Valor"] := by
  obtain ⟨cols, rows⟩ := df
  have h : cols = ["Nome", "Valor", "Categoria"] := hcols
  subst h
  simp only [DataFrame.dropnaSubsetDup, DataFrame.dropnaSubset]
  congr 1
  apply List.filter_congr
  intro r _
  show ((decide ((r.get? 0).getD Cell.na ≠ Cell.na) && true) &&
        ((decide ((r.get? 1).getD Cell.na ≠ Cell.na) && true) && true)) =
       (decide ((r.get? 0).getD Cell.na ≠ Cell.na) &&
        (decide ((r.get? 1).getD Cell.na ≠ Cell.na) && true))
  cases h0 : decide ((r.get? 0).getD Cell.na ≠ Cell.na) <;>
    cases h1 : decide ((r.get? 1).getD Cell.na ≠ Cell.na) <;> rfl

/-- when the renamed header has no duplicate labels, the
duplicate-label-faithful pipeline coincides with `normalizeDF`. -/
lemma normalizeDFDup_eq (df0 : DataFrame)
    (hnd : (df0.renameCols renameAlias).cols.Nodup) :
    normalizeDFDup df0 = normalizeDF df0 := by
  by_cases hg : "Nome" ∈ (df0.renameCols renameAlias).cols ∧
      "Valor" ∈ (df0.renameCols renameAlias).cols
  · have hpos : normalizeDFDup df0 =
        (((prepDF df0).selectDup ["Nome", "Valor", "Categoria"]).toNumericCol
          "Valor").dropnaSubsetDup ["Nome", "Valor"] := by
      simp only [normalizeDFDup, prepDF]
      rw [if_pos hg]
    have hndp : (prepDF df0).cols.Nodup := by
      simp only [prepDF]
      split
      · exact hnd
      · rename_i hcat
        refine List.Nodup.append hnd (List.nodup_singleton _) ?_
        intro a ha hb
        rw [List.mem_singleton] at hb
        subst hb
        exact hcat ha
    have hNome : "Nome" ∈ (prepDF df0).cols := by
      simp only [prepDF]
      split
      · exact hg.1
      · exact List.mem_append_left _ hg.1
    have hValor : "Valor" ∈ (prepDF df0).cols := by
      simp only [prepDF]
      split
      · exact hg.2
      · exact List.mem_append_left _ hg.2
    have hCat : "Categoria" ∈ (prepDF df0).cols := by
      simp only [prepDF]
      split
      · rename_i hcase
        exact hcase
      · exact List.mem_append_right _ (List.mem_singleton.mpr rfl)
    have hmem : ∀ c ∈ (["Nome", "Valor", "Categoria"] : List String),
        c ∈ (prepDF df0).cols := by
      intro c hc
      fin_cases hc
      · exact hNome
      · exact hValor
      · exact hCat
    rw [hpos, normalizeDF_pos df0 hg,
      selectDup_eq_select (prepDF df0) ["Nome", "Valor", "Categoria"] hndp hmem]
    exact dropnaDup_eq_canonical _ rfl
  · have h1 : normalizeDFDup df0 = DataFrame.empty := by
      simp only [normalizeDFDup]
      rw [if_neg hg]
    rw [h1, normalizeDF_empty_of_missing df0 hg]

/-- when the dispatch parses `f` into `df`, the faithful pipeline
gives its normalization. -/
lemma parsesTo_processar_dupcols (rc re : String → Except Unit DataFrame)
    (f : UploadedFile) (df : DataFrame) (h : ParsesTo rc re f df) :
    processar_upload_dupcols rc re f = normalizeDFDup df := by
  rcases h with ⟨hcsv, hok⟩ | ⟨hncsv, hx, hok⟩
  · simp [processar_upload_dupcols, processarBodyDup, hcsv, hok, Except.map]
  · have hor : (strEndsWith f.name ".xlsx" || strEndsWith f.name ".xls") = true := by
      rcases hx with h | h <;> simp [h]
    simp [processar_upload_dupcols, processarBodyDup, hncsv, hor, hok, Except.map]

/-- C3 counterexample: the CSV header `Descrição,Nome,Valor` is inside
the claim's scope (name and amount columns present after renaming),
but renaming turns both `Descrição` and `Nome` into `Nome`, the
selection keeps every column matching the duplicated label, and the
output has four columns — not exactly the three canonical fields. -/
theorem c3_counterexample_dup_header :
    "Nome" ∈ ((⟨["Descrição", "Nome", "Valor"],
      [[Cell.str "A", Cell.str "B", Cell.str "1"]]⟩ :
        DataFrame).renameCols renameAlias).cols ∧
    "Valor" ∈ ((⟨["Descrição", "Nome", "Valor"],
      [[Cell.str "A", Cell.str "B", Cell.str "1"]]⟩ :
        DataFrame).renameCols renameAlias).cols ∧
    processar_upload_dupcols readCsvSimple readFail
        ⟨"dup.csv", "Descrição,Nome,Valor\nA,B,1"⟩ =
      ⟨["Nome", "Nome", "Valor", "Categoria"],
       [[Cell.str "A", Cell.str "B", Cell.num ⟨1, 0⟩, Cell.str "Outros"]]⟩ ∧
    (processar_upload_dupcols readCsvSimple readFail
        ⟨"dup.csv", "Descrição,Nome,Valor\nA,B,1"⟩).cols ≠
      ["Nome", "Valor", "Categoria"] := by
  decide

/-- C3 amended: whenever the dispatch parses the input, the name and
amount columns are present after renaming, and the renamed header
labels are pairwise distinct, the output is exactly the
specification's description: the input rows whose name is present and
whose amount coerces, in original order, projected onto the three
canonical fields with the amount coerced — so every row whose amount
fails coercion is absent and every valid row remains. -/
theorem c3_unique_labels_projection (rc re : String → Except Unit DataFrame)
    (f : UploadedFile) (df : DataFrame) (hp : ParsesTo rc re f df)
    (hn : "Nome" ∈ (df.renameCols renameAlias).cols)
    (hv : "Valor" ∈ (df.renameCols renameAlias).cols)
    (hnd : (df.renameCols renameAlias).cols.Nodup) :
    processar_upload_dupcols rc re f = claimOutput df := by
  rw [parsesTo_processar_dupcols rc re f df hp, normalizeDFDup_eq df hnd]
  exact normalizeDF_eq_claimOutput df hn hv

/-- witness for the amended C3 at the concrete scenario CSV. -/
theorem c3_unique_labels_projection_witness :
    processar_upload_dupcols readCsvSimple readFail ⟨"data.csv", scenarioCsvPt⟩ =
      claimOutput ⟨["Descrição", "Valor", "Tipo"],
        [[Cell.str "Coffee", Cell.str "12.50", Cell.str "Food"],
         [Cell.str "Rent", Cell.str "bad", Cell.str "Housing"],
         [Cell.str "Gym", Cell.str "30", Cell.na]]⟩ :=
  c3_unique_labels_projection readCsvSimple readFail ⟨"data.csv", scenarioCsvPt⟩
    ⟨["Descrição", "Valor", "Tipo"],
     [[Cell.str "Coffee", Cell.str "12.50", Cell.str "Food"],
      [Cell.str "Rent", Cell.str "bad", Cell.str "Housing"],
      [Cell.str "Gym", Cell.str "30", Cell.na]]⟩
    (Or.inl ⟨by decide, by rfl⟩) (by decide) (by decide) (by decide)

lemma indexOf_append_single (l : List String) (c : String) (h : c ∉ l) :
    (l ++ [c]).indexOf c = l.length := by
  induction l with
  | nil => simp
  | cons a t ih =>
      have hne : a ≠ c := by
        intro hh
        exact h (hh ▸ List.mem_cons_self a t)
      have ht : c ∉ t := fun hh => h (List.mem_cons_of_mem a hh)
      simp only [List.cons_append, List.length_cons]
      rw [List.indexOf_cons_ne _ hne, ih ht]

/-- C6: when the parsed input has name and amount columns but no
category column after renaming, every output record's category field
is the default `"Outros"`. -/
theorem c6_default_category (rc re : String → Except Unit DataFrame)
    (f : UploadedFile) (df : DataFrame) (hp : ParsesTo rc re f df)
    (hu : df.Uniform)
    (hn : "Nome" ∈ (df.renameCols renameAlias).cols)
    (hv : "Valor" ∈ (df.renameCols renameAlias).cols)
    (hc : "Categoria" ∉ (df.renameCols renameAlias).cols) :
    ∀ r ∈ (processar_upload rc re f).rows, r.get? 2 = some (Cell.str "Outros") := by
  rw [parsesTo_processar rc re f df hp]
  intro r hr
  rw [normalizeDF_pos df ⟨hn, hv⟩] at hr
  obtain ⟨r0, hr0, hshape, _, _⟩ := mem_pipeline_rows hr
  subst hshape
  show some (cellAt (prepDF df).cols r0 "Categoria") = some (Cell.str "Outros")
  have hprep : prepDF df =
      (df.renameCols renameAlias).addConstCol "Categoria" (Cell.str "Outros") := by
    simp only [prepDF]
    rw [if_neg hc]
  rw [hprep] at hr0 ⊢
  simp only [DataFrame.addConstCol, DataFrame.renameCols] at hr0 ⊢
  obtain ⟨r1, hr1, hr1eq⟩ := List.mem_map.mp hr0
  rw [← hr1eq]
  have hc' : "Categoria" ∉ df.cols.map renameAlias := hc
  unfold cellAt
  rw [indexOf_append_single _ _ hc']
  have hlen : (df.cols.map renameAlias).length = r1.length := by
    rw [List.length_map]
    exact (hu r1 hr1).symm
  rw [hlen, List.get?_concat_length]
  rfl

/-- witness for C6 at a concrete two-column CSV. -/
theorem c6_default_category_witness :
    ([Cell.str "Café", Cell.num ⟨7, 0⟩, Cell.str "Outros"] : List Cell).get? 2 =
      some (Cell.str "Outros") :=
  c6_default_category readCsvSimple readFail ⟨"b.csv", "Descrição,Valor\nCafé,7"⟩
    ⟨["Descrição", "Valor"], [[Cell.str "Café", Cell.str "7"]]⟩
    (Or.inl ⟨by decide, by rfl⟩)
    (by intro r hr; simp only [List.mem_singleton] at hr; subst hr; rfl)
    (by decide) (by decide) (by decide)
    [Cell.str "Café", Cell.num ⟨7, 0⟩, Cell.str "Outros"] (by decide)

lemma endsWith_excl_ge (name ext t base : List Char)
    (hend : endsWithL name ext = true)
    (hlb : ext.length = base.length)
    (hlow : ext.map Char.toLower = base)
    (hne : ext ≠ base)
    (hge : base.length ≤ t.length)
    (hdec : ¬((t.drop (t.length - base.length)).map Char.toLower = base ∧
              t.drop (t.length - base.length) ≠ base)) :
    endsWithL name t = false := by
  cases hval : endsWithL name t with
  | false => rfl
  | true =>
      have hnest := suffix_nest name ext t hend hval (by omega)
      rw [hlb] at hnest
      exact absurd ⟨by rw [hnest]; exact hlow, by rw [hnest]; exact hne⟩ hdec

lemma endsWith_excl_lt (name ext t base : List Char)
    (hend : endsWithL name ext = true)
    (hlb : ext.length = base.length)
    (hlow : ext.map Char.toLower = base)
    (hlt : t.length + 1 = base.length)
    (hdec : ¬(t.map Char.toLower = base.drop 1)) :
    endsWithL name t = false := by
  cases hval : endsWithL name t with
  | false => rfl
  | true =>
      have hnest := suffix_nest name t ext hval hend (by omega)
      have h1 : ext.length - t.length = 1 := by omega
      rw [h1] at hnest
      have hmap := congrArg (List.map Char.toLower) hnest
      rw [List.map_drop, hlow] at hmap
      exact absurd hmap.symm hdec

/-- C10: the extension dispatch is case-sensitive: a file whose name
ends in an uppercase or mixed-case variant of a supported extension
normalizes to the empty frame whatever its content. -/
theorem c10_case_sensitive_extension (rc re : String → Except Unit DataFrame)
    (f : UploadedFile) (ext : String)
    (hvar : caseVariant ext ".csv" ∨ caseVariant ext ".xlsx" ∨ caseVariant ext ".xls")
    (hend : strEndsWith f.name ext = true) :
    processar_upload rc re f = DataFrame.empty := by
  have hendL : endsWithL f.name.data ext.data = true := hend
  rcases hvar with ⟨hlow, hne⟩ | ⟨hlow, hne⟩ | ⟨hlow, hne⟩
  · have hlb : ext.data.length = ".csv".data.length := by
      have := congrArg List.length hlow
      rwa [List.length_map] at this
    have hneL : ext.data ≠ ".csv".data := fun h => hne (string_eq_of_data h)
    exact upload_empty_of_no_ext rc re f
      (endsWith_excl_ge f.name.data ext.data ".csv".data ".csv".data hendL hlb hlow hneL
        (by decide) (by decide))
      (endsWith_excl_ge f.name.data ext.data ".xlsx".data ".csv".data hendL hlb hlow hneL
        (by decide) (by decide))
      (endsWith_excl_ge f.name.data ext.data ".xls".data ".csv".data hendL hlb hlow hneL
        (by decide) (by decide))
  · have hlb : ext.data.length = ".xlsx".data.length := by
      have := congrArg List.length hlow
      rwa [List.length_map] at this
    have hneL : ext.data ≠ ".xlsx".data := fun h => hne (string_eq_of_data h)
    exact upload_empty_of_no_ext rc re f
      (endsWith_excl_lt f.name.data ext.data ".csv".data ".xlsx".data hendL hlb hlow
        (by decide) (by decide))
      (endsWith_excl_ge f.name.data ext.data ".xlsx".data ".xlsx".data hendL hlb hlow hneL
        (by decide) (by decide))
      (endsWith_excl_lt f.name.data ext.data ".xls".data ".xlsx".data hendL hlb hlow
        (by decide) (by decide))
  · have hlb : ext.data.length = ".xls".data.length := by
      have := congrArg List.length hlow
      rwa [List.length_map] at this
    have hneL : ext.data ≠ ".xls".data := fun h => hne (string_eq_of_data h)
    exact upload_empty_of_no_ext rc re f
      (endsWith_excl_ge f.name.data ext.data ".csv".data ".xls".data hendL hlb hlow hneL
        (by decide) (by decide))
      (endsWith_excl_ge f.name.data ext.data ".xlsx".data ".xls".data hendL hlb hlow hneL
        (by decide) (by decide))
      (endsWith_excl_ge f.name.data ext.data ".xls".data ".xls".data hendL hlb hlow hneL
        (by decide) (by decide))

/-- witness for C10: an uppercase `.CSV` file with well-formed CSV
content still normalizes to the empty frame. -/
theorem c10_case_sensitive_extension_witness :
    processar_upload readCsvSimple readFail ⟨"data.CSV", scenarioCsvPt⟩ =
      DataFrame.empty :=
  c10_case_sensitive_extension readCsvSimple readFail ⟨"data.CSV", scenarioCsvPt⟩
    ".CSV" (Or.inl ⟨by decide, by decide⟩) (by decide)
